import Mathlib

/-
Verification of arden/rmq (queue.go) against its natural-language
specification.

The backing store (a Redis-compatible server) is modelled as a pair of
total maps from keys to lists and to sets.  The Redis primitives used by
queue.go (LPush, LLen, Del, SAdd, BRPopLPush) are modelled as pure state
transformers; fallible calls take explicit fault-injection parameters
(Bool flags / a failing call index), mirroring the error checks the Go
code performs on each call.  BRPopLPush with timeout 0 blocks on an empty
source list; blocking is modelled as the Option value none.
-/

set_option autoImplicit false

namespace Rmq

/-- The backing store: a map from keys to Redis lists (head of the Lean
list is the Redis left end, the last element is the right/oldest end) and
a map from keys to Redis sets (membership-guarded lists). -/
structure Store where
  lists : String → List String
  sets : String → List String

/-- A store with no keys. -/
def emptyStore : Store := ⟨fun _ => [], fun _ => []⟩

/-- Overwrite the list stored under key k. -/
def setListKey (s : Store) (k : String) (l : List String) : Store :=
  { s with lists := Function.update s.lists k l }

/-- Overwrite the set stored under key k. -/
def setSetKey (s : Store) (k : String) (l : List String) : Store :=
  { s with sets := Function.update s.sets k l }

/-- LPush k v: prepend v at the left end of the list under k. -/
def lpush (k v : String) (s : Store) : Store :=
  setListKey s k (v :: s.lists k)

/-- LLen k: length of the list under k. -/
def llen (k : String) (s : Store) : Nat := (s.lists k).length

/-- A Redis key exists when a non-empty list or set lives under it. -/
def keyExists (k : String) (s : Store) : Bool :=
  !(s.lists k).isEmpty || !(s.sets k).isEmpty

/-- Del k: removes whatever lives under k and returns how many keys were
removed (1 when the key existed, 0 otherwise). -/
def del (k : String) (s : Store) : Nat × Store :=
  ((if keyExists k s then 1 else 0), setSetKey (setListKey s k []) k [])

/-- SAdd k v: add v to the set under k; returns 1 when newly added. -/
def sadd (k v : String) (s : Store) : Nat × Store :=
  if v ∈ s.sets k then (0, s) else (1, setSetKey s k (v :: s.sets k))

/-- BRPopLPush src dst 0: atomically pop the rightmost (oldest) element
of the list under src and push it at the left end of the list under dst,
returning the moved value.  none models blocking forever on an empty
source (the call has no timeout). -/
def brpoplpush (src dst : String) (s : Store) : Option (String × Store) :=
  match (s.lists src).getLast? with
  | none => none
  | some v =>
    let s₁ := setListKey s src (s.lists src).dropLast
    some (v, setListKey s₁ dst (v :: s₁.lists dst))

/-- A Queue as in queue.go: the derived keys plus the delivery channel,
which is nil (none) for publish channels and carries the buffer size once
PrepareConsumption has succeeded. -/
structure Queue where
  name : String
  connectionName : String
  queuesKey : String
  consumersKey : String
  readyKey : String
  unackedKey : String
  deliveryChan : Option Nat
deriving DecidableEq

/-- newQueue: derives the consumers, ready and unacked keys by literal
substitution of the connection and queue names into the key templates
(rmq::connection::<c>::queue::<q>::consumers, rmq::queue::<q>::ready,
rmq::connection::<c>::queue::<q>::unacked), exactly as the
strings.Replace calls in queue.go produce. -/
def newQueue (name connectionName queuesKey : String) : Queue :=
  { name := name
    connectionName := connectionName
    queuesKey := queuesKey
    consumersKey := "rmq::connection::" ++ connectionName ++ "::queue::" ++ name ++ "::consumers"
    readyKey := "rmq::queue::" ++ name ++ "::ready"
    unackedKey := "rmq::connection::" ++ connectionName ++ "::queue::" ++ name ++ "::unacked"
    deliveryChan := none }

/-- Publish: left-push the payload onto the queue's ready list. -/
def publish (q : Queue) (payload : String) (s : Store) : Store :=
  lpush q.readyKey payload s

/-- A sequence of Publish calls, in invocation order. -/
def publishAll (q : Queue) (ps : List String) (s : Store) : Store :=
  ps.foldl (fun t p => publish q p t) s

/-- Purge: delete the ready key; on a store error return false, else
return whether the delete removed at least one key.  The Bool parameter
injects the store error of the Del call. -/
def purge (delFails : Bool) (q : Queue) (s : Store) : Bool × Store :=
  if delFails then (false, s)
  else
    let r := del q.readyKey s
    (decide (0 < r.1), r.2)

/-- Clear: delete the ready key; on a store error log and return 0, else
return the number of keys removed. -/
def clear (delFails : Bool) (q : Queue) (s : Store) : Nat × Store :=
  if delFails then (0, s)
  else del q.readyKey s

/-- Errors surfaced by ReturnUnackedDeliveries, one constructor per
fmt.Errorf site in queue.go: the LLen before the loop failing, a
BRPopLPush in the loop failing, the LLen after the loop failing, and the
consistency error when unacked is still non-empty after returning. -/
inductive RmqErr
  | countBefore
  | popFailed
  | countAfter
  | consistency (remaining : Nat)
deriving DecidableEq

/-- Fault injection for ReturnUnackedDeliveries: whether each LLen call
fails, and which BRPopLPush call (0-based) fails, if any. -/
structure RURFaults where
  llenBefore : Bool
  failPopAt : Option Nat
  llenAfter : Bool
deriving DecidableEq

/-- The error-free schedule. -/
def noFaults : RURFaults := ⟨false, none, false⟩

/-- The loop of ReturnUnackedDeliveries: unackedCount iterations of
BRPopLPush from the unacked list to the ready list.  failAt injects a
store error into the given iteration; none as the overall result models
the loop blocking forever on an empty unacked list. -/
def rupLoop (q : Queue) : Nat → Option Nat → Store → Option (Option RmqErr × Store)
  | 0, _, s => some (none, s)
  | Nat.succ n, failAt, s =>
    if failAt = some 0 then some (some RmqErr.popFailed, s)
    else
      match brpoplpush q.unackedKey q.readyKey s with
      | none => none
      | some (_, s') => rupLoop q n (failAt.map (fun j => j - 1)) s'

/-- ReturnUnackedDeliveries: read the unacked length, move that many
elements from unacked back to ready with BRPopLPush, then re-read the
unacked length and fail with a consistency error if it is non-zero; on
any store error return the count 0 together with the error.  The
interference parameter models deliveries left-pushed onto the unacked
list by a concurrently running fetcher between the loop and the final
length check (the situation the consistency check exists to detect). -/
def returnUnackedDeliveries (f : RURFaults) (interference : List String)
    (q : Queue) (s : Store) : Option ((Nat × Option RmqErr) × Store) :=
  if f.llenBefore then some ((0, some RmqErr.countBefore), s)
  else
    let unackedCount := llen q.unackedKey s
    match rupLoop q unackedCount f.failPopAt s with
    | none => none
    | some (some e, s₁) => some ((0, some e), s₁)
    | some (none, s₁) =>
      let s₂ := interference.foldl (fun t v => lpush q.unackedKey v t) s₁
      if f.llenAfter then some ((0, some RmqErr.countAfter), s₂)
      else if llen q.unackedKey s₂ ≠ 0 then
        some ((0, some (RmqErr.consistency (llen q.unackedKey s₂))), s₂)
      else some ((unackedCount, none), s₂)

/-- PrepareConsumption: refuse if the delivery channel already exists;
SAdd the queue name into the connection's queues set (refusing on a store
error); then create the channel, LPush the queue name onto the same
queues key (the result of that LPush is not checked in queue.go) and
start the fetcher. -/
def prepareConsumption (saddFails lpushFails : Bool) (bufferSize : Nat)
    (q : Queue) (s : Store) : Bool × Queue × Store :=
  match q.deliveryChan with
  | some _ => (false, q, s)
  | none =>
    if saddFails then (false, q, s)
    else
      let s₁ := (sadd q.queuesKey q.name s).2
      let q' := { q with deliveryChan := some bufferSize }
      let s₂ := if lpushFails then s₁ else lpush q.queuesKey q.name s₁
      (true, q', s₂)

/-- Outcome of AddConsumer: the log.Panicf termination when consumption
was not prepared, or the returned consumer name (the empty string when
the SAdd of the name failed). -/
inductive AddConsumerResult
  | panicked
  | named (name : String)
deriving DecidableEq

/-- AddConsumer: panic if the delivery channel is nil; otherwise build
the name tag-suffix (the suffix stands for the 6-character random string
uniuri.NewLen 6 produces), SAdd it into the queue's consumers set
(returning the empty name on a store error) and return it. -/
def addConsumer (suffix : String) (saddFails : Bool) (tag : String)
    (q : Queue) (s : Store) : AddConsumerResult × Store :=
  match q.deliveryChan with
  | none => (AddConsumerResult.panicked, s)
  | some _ =>
    let name := tag ++ "-" ++ suffix
    if saddFails then (AddConsumerResult.named "", s)
    else (AddConsumerResult.named name, (sadd q.consumersKey name s).2)

/-- n iterations of the fetcher's BRPopLPush from ready to unacked,
collecting the payloads in the order they are handed to the delivery
channel; none models the fetcher blocking on an empty ready list. -/
def fetchN (q : Queue) : Nat → Store → Option (List String × Store)
  | 0, s => some ([], s)
  | Nat.succ n, s =>
    match brpoplpush q.readyKey q.unackedKey s with
    | none => none
    | some (v, s') =>
      match fetchN q n s' with
      | none => none
      | some (vs, s'') => some (v :: vs, s'')

/-- One backing-store response to the fetcher's BRPopLPush: an error or a
delivered payload. -/
inductive BSResp
  | err
  | val (payload : String)

/-- Control-flow outcomes an iteration of a loop can have. -/
inductive LoopControl
  | continueLoop
  | exitLoop
deriving DecidableEq

/-- The body of the fetcher loop in queue.go: on a store error, log and
continue (delivering nothing); on success, send the payload to the
delivery channel and continue.  No branch exits the loop. -/
def consumeBody (r : BSResp) : LoopControl × Option String :=
  match r with
  | BSResp.err => (LoopControl.continueLoop, none)
  | BSResp.val v => (LoopControl.continueLoop, some v)

/-- Running the fetcher loop for n iterations against a stream of
backing-store responses: returns whether the loop is still running and
the payloads delivered so far, in order. -/
def consumeRun (resp : Nat → BSResp) : Nat → Bool × List String
  | 0 => (true, [])
  | Nat.succ n =>
    match consumeRun resp n with
    | (false, ds) => (false, ds)
    | (true, ds) =>
      match consumeBody (resp n) with
      | (LoopControl.exitLoop, _) => (false, ds)
      | (LoopControl.continueLoop, none) => (true, ds)
      | (LoopControl.continueLoop, some v) => (true, ds ++ [v])

/-- The order repeated right-pops yield the elements of a ready list:
rightmost (oldest) first. -/
def consumeOrder (l : List String) : List String := l.reverse

/-- A freshly opened queue named things on connection conn1. -/
def qfresh : Queue := newQueue "things" "conn1" "rmq::connection::conn1::queues"

/-- The same queue after PrepareConsumption succeeded with buffer 5. -/
def qcons : Queue := { qfresh with deliveryChan := some 5 }

/-- A store whose only data is one payload in the ready list of qfresh. -/
def sReadyA : Store := lpush qfresh.readyKey "a" emptyStore

/-- A store whose only data is three deliveries in the unacked list of
qfresh (left to right: n, o1, o2 — o2 is the oldest). -/
def sUn : Store := setListKey emptyStore qfresh.unackedKey ["n", "o1", "o2"]

/-- A store holding ready list r, j2, j1 for qfresh: j1 the oldest, as
after publishing j1 then j2 then r. -/
def sC2 : Store := setListKey emptyStore qfresh.readyKey ["r", "j2", "j1"]

theorem setListKey_lists_self (s : Store) (k : String) (l : List String) :
    (setListKey s k l).lists k = l := by
  simp [setListKey]

theorem setListKey_lists_ne (s : Store) (k : String) (l : List String)
    {k' : String} (h : k' ≠ k) : (setListKey s k l).lists k' = s.lists k' := by
  simp [setListKey, Function.update_noteq h]

theorem setListKey_sets (s : Store) (k : String) (l : List String) :
    (setListKey s k l).sets = s.sets := rfl

theorem setSetKey_sets_self (s : Store) (k : String) (l : List String) :
    (setSetKey s k l).sets k = l := by
  simp [setSetKey]

theorem setSetKey_sets_ne (s : Store) (k : String) (l : List String)
    {k' : String} (h : k' ≠ k) : (setSetKey s k l).sets k' = s.sets k' := by
  simp [setSetKey, Function.update_noteq h]

theorem setSetKey_lists (s : Store) (k : String) (l : List String) :
    (setSetKey s k l).lists = s.lists := rfl

theorem lpush_lists_self (k v : String) (s : Store) :
    (lpush k v s).lists k = v :: s.lists k := by
  simp [lpush, setListKey_lists_self]

theorem lpush_lists_ne (k v : String) (s : Store) {k' : String} (h : k' ≠ k) :
    (lpush k v s).lists k' = s.lists k' := by
  simp [lpush, setListKey_lists_ne _ _ _ h]

theorem lpush_sets (k v : String) (s : Store) : (lpush k v s).sets = s.sets := rfl

theorem brpoplpush_spec (src dst : String) (hne : src ≠ dst) (s : Store)
    (a : List String) (x : String) (hsrc : s.lists src = a ++ [x]) :
    ∃ s', brpoplpush src dst s = some (x, s')
      ∧ s'.lists src = a
      ∧ s'.lists dst = x :: s.lists dst
      ∧ s'.sets = s.sets
      ∧ ∀ k, k ≠ src → k ≠ dst → s'.lists k = s.lists k := by
  have h1 : brpoplpush src dst s =
      some (x, setListKey (setListKey s src a) dst (x :: s.lists dst)) := by
    unfold brpoplpush
    rw [hsrc]
    simp only [List.getLast?_concat, List.dropLast_concat]
    rw [setListKey_lists_ne _ _ _ (Ne.symm hne)]
  refine ⟨_, h1, ?_, ?_, rfl, ?_⟩
  · rw [setListKey_lists_ne _ _ _ hne, setListKey_lists_self]
  · rw [setListKey_lists_self]
  · intro k hk1 hk2
    rw [setListKey_lists_ne _ _ _ hk2, setListKey_lists_ne _ _ _ hk1]

theorem foldl_lpush_lists (k : String) :
    ∀ (ps : List String) (s : Store),
      (ps.foldl (fun t v => lpush k v t) s).lists k = ps.reverse ++ s.lists k := by
  intro ps
  induction ps with
  | nil => intro s; rfl
  | cons p ps ih =>
    intro s
    simp only [List.foldl_cons, List.reverse_cons]
    rw [ih (lpush k p s), lpush_lists_self]
    simp

theorem foldl_lpush_lists_ne (k : String) {k' : String} (h : k' ≠ k) :
    ∀ (ps : List String) (s : Store),
      (ps.foldl (fun t v => lpush k v t) s).lists k' = s.lists k' := by
  intro ps
  induction ps with
  | nil => intro s; rfl
  | cons p ps ih =>
    intro s
    simp only [List.foldl_cons]
    rw [ih (lpush k p s), lpush_lists_ne _ _ _ h]

theorem publishAll_lists_ready (q : Queue) (ps : List String) (s : Store) :
    (publishAll q ps s).lists q.readyKey = ps.reverse ++ s.lists q.readyKey := by
  have h : publishAll q ps s = ps.foldl (fun t v => lpush q.readyKey v t) s := by
    simp [publishAll, publish]
  rw [h, foldl_lpush_lists]

theorem publishAll_lists_ne (q : Queue) (ps : List String) (s : Store)
    {k : String} (h : k ≠ q.readyKey) :
    (publishAll q ps s).lists k = s.lists k := by
  have h2 : publishAll q ps s = ps.foldl (fun t v => lpush q.readyKey v t) s := by
    simp [publishAll, publish]
  rw [h2, foldl_lpush_lists_ne _ h]

theorem fetchN_spec (q : Queue) (hne : q.readyKey ≠ q.unackedKey) :
    ∀ (taken rem : List String) (s : Store),
      s.lists q.readyKey = rem ++ taken.reverse →
      ∃ s', fetchN q taken.length s = some (taken, s')
        ∧ s'.lists q.readyKey = rem
        ∧ s'.lists q.unackedKey = taken.reverse ++ s.lists q.unackedKey := by
  intro taken
  induction taken with
  | nil =>
    intro rem s h
    exact ⟨s, rfl, by simpa using h, by simp⟩
  | cons t ts ih =>
    intro rem s h
    have h' : s.lists q.readyKey = (rem ++ ts.reverse) ++ [t] := by
      rw [h, List.reverse_cons, List.append_assoc]
    obtain ⟨s₁, hpop, hready₁, hunacked₁, _, _⟩ :=
      brpoplpush_spec q.readyKey q.unackedKey hne s (rem ++ ts.reverse) t h'
    obtain ⟨s', hfetch, hready', hunacked'⟩ := ih rem s₁ hready₁
    refine ⟨s', ?_, hready', ?_⟩
    · show fetchN q (ts.length + 1) s = some (t :: ts, s')
      unfold fetchN
      rw [hpop]
      simp only [hfetch]
    · rw [hunacked', hunacked₁, List.reverse_cons, List.append_assoc,
        List.singleton_append]

theorem rupLoop_ok (q : Queue) (hne : q.unackedKey ≠ q.readyKey) :
    ∀ (u : List String) (s : Store), s.lists q.unackedKey = u →
      ∃ s', rupLoop q u.length none s = some (none, s')
        ∧ s'.lists q.unackedKey = []
        ∧ s'.lists q.readyKey = u ++ s.lists q.readyKey := by
  intro u
  induction u using List.reverseRecOn with
  | nil =>
    intro s h
    exact ⟨s, rfl, h, rfl⟩
  | append_singleton us x ih =>
    intro s h
    obtain ⟨s₁, hpop, hunacked₁, hready₁, _, _⟩ :=
      brpoplpush_spec q.unackedKey q.readyKey hne s us x h
    obtain ⟨s', hloop, hunacked', hready'⟩ := ih s₁ hunacked₁
    refine ⟨s', ?_, hunacked', ?_⟩
    · rw [List.length_append, List.length_singleton]
      unfold rupLoop
      rw [if_neg (by simp : ¬ ((none : Option Nat) = some 0))]
      rw [hpop]
      simpa using hloop
    · rw [hready', hready₁, List.append_assoc, List.singleton_append]

theorem rupLoop_fail (q : Queue) (hne : q.unackedKey ≠ q.readyKey) :
    ∀ (b a : List String) (fuel : Nat) (s : Store),
      s.lists q.unackedKey = a ++ b → b.length < fuel →
      ∃ s', rupLoop q fuel (some b.length) s = some (some RmqErr.popFailed, s')
        ∧ s'.lists q.unackedKey = a
        ∧ s'.lists q.readyKey = b ++ s.lists q.readyKey := by
  intro b
  induction b using List.reverseRecOn with
  | nil =>
    intro a fuel s h hfuel
    match fuel, hfuel with
    | Nat.succ f, _ =>
      refine ⟨s, ?_, by simpa using h, rfl⟩
      unfold rupLoop
      simp
  | append_singleton bs x ih =>
    intro a fuel s h hfuel
    rw [List.length_append, List.length_singleton] at hfuel ⊢
    match fuel, hfuel with
    | Nat.succ f, hfuel =>
      have hfl : bs.length < f := Nat.lt_of_succ_lt_succ hfuel
      have h' : s.lists q.unackedKey = (a ++ bs) ++ [x] := by
        rw [h, List.append_assoc]
      obtain ⟨s₁, hpop, hunacked₁, hready₁, _, _⟩ :=
        brpoplpush_spec q.unackedKey q.readyKey hne s (a ++ bs) x h'
      obtain ⟨s', hloop, hunacked', hready'⟩ := ih a f s₁ hunacked₁ hfl
      refine ⟨s', ?_, hunacked', ?_⟩
      · unfold rupLoop
        rw [if_neg (by simp : ¬ (some (bs.length + 1) = some 0))]
        rw [hpop]
        simpa using hloop
      · rw [hready', hready₁, List.append_assoc, List.singleton_append]

theorem returnUnacked_ok (q : Queue) (hne : q.unackedKey ≠ q.readyKey) (s : Store) :
    ∃ s', returnUnackedDeliveries noFaults [] q s
        = some (((s.lists q.unackedKey).length, none), s')
      ∧ s'.lists q.unackedKey = []
      ∧ s'.lists q.readyKey = s.lists q.unackedKey ++ s.lists q.readyKey := by
  obtain ⟨s', hloop, hu, hr⟩ := rupLoop_ok q hne (s.lists q.unackedKey) s rfl
  refine ⟨s', ?_, hu, hr⟩
  unfold returnUnackedDeliveries
  simp only [noFaults, llen, List.foldl_nil]
  rw [hloop]
  simp [hu]

theorem returnUnacked_interference (q : Queue) (hne : q.unackedKey ≠ q.readyKey)
    (s : Store) (i : List String) (hi : i ≠ []) :
    ∃ s', returnUnackedDeliveries noFaults i q s
        = some ((0, some (RmqErr.consistency i.length)), s') := by
  obtain ⟨s₁, hloop, hu, hr⟩ := rupLoop_ok q hne (s.lists q.unackedKey) s rfl
  have hlen :
      ((i.foldl (fun t v => lpush q.unackedKey v t) s₁).lists q.unackedKey).length
        = i.length := by
    rw [foldl_lpush_lists, hu]
    simp
  refine ⟨i.foldl (fun t v => lpush q.unackedKey v t) s₁, ?_⟩
  unfold returnUnackedDeliveries
  simp only [noFaults, llen]
  rw [hloop]
  simp only [hlen]
  rw [if_neg (by simp : ¬ (false = true)),
    if_pos (by simpa [List.length_eq_zero] using hi : ¬ i.length = 0)]
  simp

theorem sadd_mem_self (k v : String) (s : Store) : v ∈ (sadd k v s).2.sets k := by
  unfold sadd
  by_cases h : v ∈ s.sets k
  · simp [h]
  · simp [h, setSetKey_sets_self]

theorem sadd_lists (k v : String) (s : Store) : (sadd k v s).2.lists = s.lists := by
  unfold sadd
  by_cases h : v ∈ s.sets k <;> simp [h, setSetKey_lists]

theorem sadd_sets_ne (k v : String) (s : Store) {k' : String} (h : k' ≠ k) :
    (sadd k v s).2.sets k' = s.sets k' := by
  unfold sadd
  by_cases hm : v ∈ s.sets k <;> simp [hm, setSetKey_sets_ne _ _ _ h]

theorem returnUnacked_of_rupLoop_err (q : Queue) (f : RURFaults)
    (i : List String) (s : Store) (e : RmqErr) (s₁ : Store)
    (hb : f.llenBefore = false)
    (hloop : rupLoop q (llen q.unackedKey s) f.failPopAt s = some (some e, s₁)) :
    returnUnackedDeliveries f i q s = some ((0, some e), s₁) := by
  unfold returnUnackedDeliveries
  rw [hb, if_neg (by simp : ¬ (false = true))]
  dsimp only
  rw [hloop]

/-- Claim C1: ReturnUnackedDeliveries moves every element currently in the
queue's unacked list back to the ready list using the blocking pop-push
primitive, returns the number of elements moved, and, if the unacked list
is non-empty after the moves (here: because concurrent left-pushes landed
on it before the final length check), fails with a consistency error
carrying count 0 instead of returning the number moved. -/
theorem returnUnackedDeliveries_moves_all_or_consistency_error
    (q : Queue) (s : Store) (hne : q.unackedKey ≠ q.readyKey) :
    (∃ s', returnUnackedDeliveries noFaults [] q s
        = some (((s.lists q.unackedKey).length, none), s')
      ∧ s'.lists q.unackedKey = []
      ∧ s'.lists q.readyKey = s.lists q.unackedKey ++ s.lists q.readyKey)
    ∧ ∀ i : List String, i ≠ [] →
        ∃ s', returnUnackedDeliveries noFaults i q s
          = some ((0, some (RmqErr.consistency i.length)), s') :=
  ⟨returnUnacked_ok q hne s, fun i hi => returnUnacked_interference q hne s i hi⟩

theorem returnUnackedDeliveries_moves_all_witness :
    (∃ s', returnUnackedDeliveries noFaults [] qfresh sUn
        = some (((sUn.lists qfresh.unackedKey).length, none), s')
      ∧ s'.lists qfresh.unackedKey = []
      ∧ s'.lists qfresh.readyKey
          = sUn.lists qfresh.unackedKey ++ sUn.lists qfresh.readyKey)
    ∧ ∀ i : List String, i ≠ [] →
        ∃ s', returnUnackedDeliveries noFaults i qfresh sUn
          = some ((0, some (RmqErr.consistency i.length)), s') :=
  returnUnackedDeliveries_moves_all_or_consistency_error qfresh sUn (by decide)

/-- Claim C2: when the fetcher has taken the deliveries taken (oldest
first) off the ready list, left-pushing each onto the unacked list,
repatriation by ReturnUnackedDeliveries puts them back so that the
consumption order of the ready list (right-pops, oldest first) is the
remaining old deliveries followed by the repatriated ones in exactly the
order they were originally taken. -/
theorem repatriation_preserves_taken_order
    (q : Queue) (hne : q.readyKey ≠ q.unackedKey)
    (taken rem : List String) (s : Store)
    (hready : s.lists q.readyKey = rem ++ taken.reverse)
    (hunacked : s.lists q.unackedKey = []) :
    ∃ s₁ s₂,
      fetchN q taken.length s = some (taken, s₁)
      ∧ returnUnackedDeliveries noFaults [] q s₁
          = some ((taken.length, none), s₂)
      ∧ consumeOrder (s₂.lists q.readyKey) = consumeOrder rem ++ taken := by
  obtain ⟨s₁, hfetch, hr₁, hu₁⟩ := fetchN_spec q hne taken rem s hready
  rw [hunacked, List.append_nil] at hu₁
  obtain ⟨s₂, hret, hu₂, hr₂⟩ := returnUnacked_ok q (Ne.symm hne) s₁
  rw [hu₁] at hret hr₂
  refine ⟨s₁, s₂, hfetch, ?_, ?_⟩
  · simpa using hret
  · rw [hr₂, hr₁]
    unfold consumeOrder
    rw [List.reverse_append, List.reverse_reverse]

theorem repatriation_preserves_taken_order_witness :
    ∃ s₁ s₂,
      fetchN qfresh (["j1", "j2"] : List String).length sC2 = some (["j1", "j2"], s₁)
      ∧ returnUnackedDeliveries noFaults [] qfresh s₁
          = some (((["j1", "j2"] : List String).length, none), s₂)
      ∧ consumeOrder (s₂.lists qfresh.readyKey)
          = consumeOrder ["r"] ++ ["j1", "j2"] :=
  repatriation_preserves_taken_order qfresh (by decide) ["j1", "j2"] ["r"] sC2
    (by decide) (by decide)

/-- Claim C3: Publish left-pushes each payload onto the ready list and the
fetcher right-pops the oldest element while atomically left-pushing it
onto the unacked list, so with a single consumer the delivery order of
the payloads equals their publish order (per-queue FIFO). -/
theorem publish_consume_fifo (q : Queue) (hne : q.readyKey ≠ q.unackedKey)
    (ps : List String) (s : Store) (h0 : s.lists q.readyKey = []) :
    ∃ s', fetchN q ps.length (publishAll q ps s) = some (ps, s')
      ∧ s'.lists q.readyKey = []
      ∧ s'.lists q.unackedKey = ps.reverse ++ s.lists q.unackedKey := by
  have hready : (publishAll q ps s).lists q.readyKey = [] ++ ps.reverse := by
    rw [publishAll_lists_ready, h0]
    simp
  obtain ⟨s', hfetch, hr, hu⟩ := fetchN_spec q hne ps [] (publishAll q ps s) hready
  refine ⟨s', hfetch, hr, ?_⟩
  rw [hu, publishAll_lists_ne q ps s (Ne.symm hne)]

theorem publish_consume_fifo_witness :
    ∃ s', fetchN qfresh (["a", "b", "c"] : List String).length
        (publishAll qfresh ["a", "b", "c"] emptyStore) = some (["a", "b", "c"], s')
      ∧ s'.lists qfresh.readyKey = []
      ∧ s'.lists qfresh.unackedKey
          = (["a", "b", "c"] : List String).reverse
            ++ emptyStore.lists qfresh.unackedKey :=
  publish_consume_fifo qfresh (by decide) ["a", "b", "c"] emptyStore (by decide)

/-- Claim C4: calling PrepareConsumption on a queue that is already in
consuming mode (its delivery channel exists) returns false and changes
neither the queue nor the backing store, whatever faults the store would
have produced. -/
theorem prepareConsumption_already_consuming (q : Queue) (s : Store) (b : Nat)
    (h : q.deliveryChan = some b) (fa fb : Bool) (bufferSize : Nat) :
    prepareConsumption fa fb bufferSize q s = (false, q, s) := by
  unfold prepareConsumption
  rw [h]

theorem prepareConsumption_already_consuming_witness :
    prepareConsumption false false 10 qcons emptyStore = (false, qcons, emptyStore) :=
  prepareConsumption_already_consuming qcons emptyStore 5 rfl false false 10

/-- Claim C5: the fetcher loop never leaves the loop: after any number of
iterations against any stream of backing-store responses (errors
included) it is still running, and an iteration that sees a store error
continues without delivering anything.  In this version of queue.go the
loop body has no exit branch at all, so in particular no backing-store
error terminates it. -/
theorem consume_loop_never_exits (resp : Nat → BSResp) (n : Nat) :
    (consumeRun resp n).1 = true
    ∧ consumeBody BSResp.err = (LoopControl.continueLoop, none) := by
  constructor
  · induction n with
    | zero => rfl
    | succ m ih =>
      unfold consumeRun
      rcases hc : consumeRun resp m with ⟨running, ds⟩
      rw [hc] at ih
      simp only at ih
      subst ih
      cases resp m <;> simp [consumeBody]
  · rfl

/-- Claim C6 as stated is false on the code: on a successful call,
PrepareConsumption LPushes the queue name onto the connection's queues
key in addition to the SAdd, so the list under that key does change
(concretely: preparing a fresh queue over the empty store leaves the
one-element list things under the queues key, where the claim requires
it unchanged). -/
theorem prepareConsumption_lpush_counterexample :
    ¬ ((prepareConsumption false false 10 qfresh emptyStore).2.2.lists qfresh.queuesKey
        = emptyStore.lists qfresh.queuesKey) := by
  decide

/-- Claim C6 (amended): on a fresh queue with no store errors,
PrepareConsumption records the queue name in the connection's queues set
with SAdd and additionally performs a redundant LPush of the queue name
onto the same queues key; it writes to no other key. -/
theorem prepareConsumption_sadd_and_redundant_lpush
    (q : Queue) (s : Store) (bufferSize : Nat) (h : q.deliveryChan = none) :
    ∃ q' s',
      prepareConsumption false false bufferSize q s = (true, q', s')
      ∧ q'.deliveryChan = some bufferSize
      ∧ q.name ∈ s'.sets q.queuesKey
      ∧ s'.lists q.queuesKey = q.name :: s.lists q.queuesKey
      ∧ ∀ k, k ≠ q.queuesKey → s'.lists k = s.lists k ∧ s'.sets k = s.sets k := by
  refine ⟨{ q with deliveryChan := some bufferSize },
    lpush q.queuesKey q.name (sadd q.queuesKey q.name s).2, ?_, rfl, ?_, ?_, ?_⟩
  · unfold prepareConsumption
    rw [h]
    rfl
  · rw [lpush_sets]
    exact sadd_mem_self q.queuesKey q.name s
  · rw [lpush_lists_self, sadd_lists]
  · intro k hk
    constructor
    · rw [lpush_lists_ne _ _ _ hk, sadd_lists]
    · rw [lpush_sets, sadd_sets_ne _ _ _ hk]

theorem prepareConsumption_sadd_and_redundant_lpush_witness :
    ∃ q' s',
      prepareConsumption false false 10 qfresh emptyStore = (true, q', s')
      ∧ q'.deliveryChan = some 10
      ∧ qfresh.name ∈ s'.sets qfresh.queuesKey
      ∧ s'.lists qfresh.queuesKey = qfresh.name :: emptyStore.lists qfresh.queuesKey
      ∧ ∀ k, k ≠ qfresh.queuesKey →
          s'.lists k = emptyStore.lists k ∧ s'.sets k = emptyStore.sets k :=
  prepareConsumption_sadd_and_redundant_lpush qfresh emptyStore 10 rfl

/-- Claim C7 as stated is false on the code: Clear deletes the shared
ready key, so a ready list holding a payload is not left unchanged
(concretely: over a store whose ready list is the one-element list a,
Clear empties it, where the claim requires it untouched). -/
theorem clear_modifies_ready_counterexample :
    ¬ ((clear false qfresh sReadyA).2.lists qfresh.readyKey
        = sReadyA.lists qfresh.readyKey) := by
  decide

/-- Claim C7 (amended): Clear deletes the queue's shared ready key — the
same store effect as Purge — returning the number of keys removed, and
leaves every other key (in particular the per-connection unacked and
consumers keys) unchanged. -/
theorem clear_deletes_ready_key (q : Queue) (s : Store) :
    (clear false q s).2.lists q.readyKey = []
    ∧ (clear false q s).2.sets q.readyKey = []
    ∧ (clear false q s).2 = (purge false q s).2
    ∧ (clear false q s).1 = (if keyExists q.readyKey s then 1 else 0)
    ∧ ∀ k, k ≠ q.readyKey →
        (clear false q s).2.lists k = s.lists k
        ∧ (clear false q s).2.sets k = s.sets k := by
  refine ⟨?_, ?_, rfl, rfl, ?_⟩
  · show (setSetKey (setListKey s q.readyKey []) q.readyKey []).lists q.readyKey = []
    rw [setSetKey_lists, setListKey_lists_self]
  · show (setSetKey (setListKey s q.readyKey []) q.readyKey []).sets q.readyKey = []
    rw [setSetKey_sets_self]
  · intro k hk
    constructor
    · show (setSetKey (setListKey s q.readyKey []) q.readyKey []).lists k = s.lists k
      rw [setSetKey_lists, setListKey_lists_ne _ _ _ hk]
    · show (setSetKey (setListKey s q.readyKey []) q.readyKey []).sets k = s.sets k
      rw [setSetKey_sets_ne _ _ _ hk, setListKey_sets]

theorem clear_deletes_ready_key_witness :
    (clear false qfresh sReadyA).2.lists qfresh.readyKey = []
    ∧ (clear false qfresh sReadyA).2.lists qfresh.unackedKey
        = sReadyA.lists qfresh.unackedKey :=
  ⟨(clear_deletes_ready_key qfresh sReadyA).1,
    ((clear_deletes_ready_key qfresh sReadyA).2.2.2.2 qfresh.unackedKey (by decide)).1⟩

/-- Claim C8: AddConsumer on a queue whose consumption was not prepared
ends in the log.Panicf termination, touching nothing; on a prepared
queue, with the 6-character random suffix the name generator produced, it
returns the consumer name tag-suffix (of length length of tag + 7) after
registering that name in the queue's consumers set. -/
theorem addConsumer_protocol (q : Queue) (s : Store) (tag suffix : String)
    (hsuffix : suffix.length = 6) :
    (q.deliveryChan = none →
      addConsumer suffix false tag q s = (AddConsumerResult.panicked, s))
    ∧ ∀ b : Nat, q.deliveryChan = some b →
        ∃ s', addConsumer suffix false tag q s
            = (AddConsumerResult.named (tag ++ "-" ++ suffix), s')
          ∧ (tag ++ "-" ++ suffix).length = tag.length + 1 + 6
          ∧ (tag ++ "-" ++ suffix) ∈ s'.sets q.consumersKey := by
  constructor
  · intro h
    unfold addConsumer
    rw [h]
  · intro b h
    refine ⟨(sadd q.consumersKey (tag ++ "-" ++ suffix) s).2, ?_, ?_, ?_⟩
    · unfold addConsumer
      rw [h]
      rfl
    · have hdash : ("-" : String).length = 1 := rfl
      simp [String.length_append, hsuffix, hdash]
    · exact sadd_mem_self q.consumersKey (tag ++ "-" ++ suffix) s

theorem addConsumer_protocol_witness :
    addConsumer "abc123" false "worker" qfresh emptyStore
        = (AddConsumerResult.panicked, emptyStore)
    ∧ ∃ s', addConsumer "abc123" false "worker" qcons emptyStore
          = (AddConsumerResult.named ("worker" ++ "-" ++ "abc123"), s')
        ∧ ("worker" ++ "-" ++ "abc123").length = "worker".length + 1 + 6
        ∧ ("worker" ++ "-" ++ "abc123") ∈ s'.sets qcons.consumersKey :=
  ⟨(addConsumer_protocol qfresh emptyStore "worker" "abc123" (by decide)).1 rfl,
    (addConsumer_protocol qcons emptyStore "worker" "abc123" (by decide)).2 5 rfl⟩

/-- Claim C9: Purge deletes the queue's ready key and returns true if and
only if anything existed under that key. -/
theorem purge_returns_existed (q : Queue) (s : Store) :
    ((purge false q s).1 = true ↔ keyExists q.readyKey s = true)
    ∧ (purge false q s).2.lists q.readyKey = []
    ∧ (purge false q s).2.sets q.readyKey = [] := by
  refine ⟨?_, ?_, ?_⟩
  · show decide (0 < (if keyExists q.readyKey s then 1 else 0)) = true ↔ _
    by_cases h : keyExists q.readyKey s <;> simp [h]
  · show (setSetKey (setListKey s q.readyKey []) q.readyKey []).lists q.readyKey = []
    rw [setSetKey_lists, setListKey_lists_self]
  · show (setSetKey (setListKey s q.readyKey []) q.readyKey []).sets q.readyKey = []
    rw [setSetKey_sets_self]

theorem purge_returns_existed_witness :
    (purge false qfresh sReadyA).1 = true
    ∧ (purge false qfresh sReadyA).2.lists qfresh.readyKey = [] :=
  ⟨(purge_returns_existed qfresh sReadyA).1.mpr (by decide),
    (purge_returns_existed qfresh sReadyA).2.1⟩

/-- Claim C10: if the BRPopLPush after the first b.length moves fails
partway through ReturnUnackedDeliveries (deliveries b already moved,
deliveries a still unmoved), the call returns the count 0 together with
the error — not the number already repatriated — and the moved deliveries
stay on the ready list: nothing is rolled back. -/
theorem returnUnackedDeliveries_partial_failure
    (q : Queue) (s : Store) (a b : List String)
    (hne : q.unackedKey ≠ q.readyKey)
    (hu : s.lists q.unackedKey = a ++ b) (ha : a ≠ []) (_hb : b ≠ []) :
    ∃ s', returnUnackedDeliveries ⟨false, some b.length, false⟩ [] q s
        = some ((0, some RmqErr.popFailed), s')
      ∧ s'.lists q.unackedKey = a
      ∧ s'.lists q.readyKey = b ++ s.lists q.readyKey := by
  have hfuel : b.length < llen q.unackedKey s := by
    have hpos : 0 < a.length := List.length_pos.2 ha
    rw [llen, hu, List.length_append]
    omega
  obtain ⟨s', hloop, hu', hr'⟩ :=
    rupLoop_fail q hne b a (llen q.unackedKey s) s hu hfuel
  exact ⟨s',
    returnUnacked_of_rupLoop_err q ⟨false, some b.length, false⟩ [] s
      RmqErr.popFailed s' rfl hloop, hu', hr'⟩

theorem returnUnackedDeliveries_partial_failure_witness :
    ∃ s', returnUnackedDeliveries ⟨false, some (["o1", "o2"] : List String).length, false⟩
          [] qfresh sUn
        = some ((0, some RmqErr.popFailed), s')
      ∧ s'.lists qfresh.unackedKey = ["n"]
      ∧ s'.lists qfresh.readyKey = ["o1", "o2"] ++ sUn.lists qfresh.readyKey :=
  returnUnackedDeliveries_partial_failure qfresh sUn ["n"] ["o1", "o2"]
    (by decide) (by decide) (by decide) (by decide)

end Rmq
